import Mathlib

/-!
Shallow embedding of `src/ffd.py` (classes `FlareDataset` and `Flares`).

Real numbers of the source are modelled as rationals (`ℚ`); numpy arrays as
`List ℚ`.  The numpy operations used by the source are modelled by executable
Lean functions:

* `np.cumsum`        → `cumsum` (element `i` is the sum of the first `i+1`);
* `np.searchsorted(elims, v, side='right')` on a sorted array
                     → `searchsortedRight` (length of the longest prefix of
                       elements `≤ v`, which on a sorted array is exactly the
                       right-side insertion index numpy returns);
* `np.sort` / `np.argsort`-then-reindex
                     → `List.insertionSort` (a sorted permutation);
* numpy's negative-index wraparound `a[-1]`
                     → `npGetWrap` (an index `i < 0` addresses `a[len + i]`);
* `np.concatenate` on an empty list of arrays raises
  `ValueError: need at least one array to concatenate`
                     → `flaresInit` returns `Except.error` on `[]`.

`Flares.__init__` has no explicit validation; the only failure path is the
`np.concatenate` call on an empty dataset list, hence `flaresInit` is an
`Except String Flares` whose sole error case is the empty input.  Division by
zero, which numpy turns into `inf`/`nan` values (with a warning, not an
exception), appears in the `ℚ` model as the total function `x / 0 = 0`; no
theorem below depends on the value of a division by zero, only on the fact
that the construction does not raise.
-/

deriving instance DecidableEq for Except

namespace FFD

/-- `FlareDataset.__init__`: stores the detection limit (`elim`), the exposure
time (`expt`) and the event energies (`e`). -/
structure FlareDataset where
  elim : ℚ
  expt : ℚ
  e : List ℚ
deriving DecidableEq, Repr

/-- `self.n = len(flare_energies)`. -/
def FlareDataset.n (d : FlareDataset) : Nat := d.e.length

/-- The attributes a `Flares` object exposes after `__init__`. -/
structure Flares where
  datasets : List FlareDataset
  n_total : Nat
  expt_total : ℚ
  e : List ℚ
  expt_detectable : List ℚ
  cumfreq_naive : List ℚ
  cumfreq_corrected : List ℚ
deriving DecidableEq, Repr

/-- `np.cumsum`: element `i` is the sum of the first `i + 1` entries. -/
def cumsum (xs : List ℚ) : List ℚ :=
  (List.range xs.length).map (fun i => (xs.take (i + 1)).sum)

/-- `np.searchsorted(xs, v, side='right')` for a sorted `xs`: the number of
leading elements `≤ v`, i.e. the rightmost insertion position keeping `xs`
sorted. -/
def searchsortedRight (xs : List ℚ) (v : ℚ) : Nat :=
  (xs.takeWhile (fun x => decide (x ≤ v))).length

/-- numpy indexing with negative-index wraparound: `a[i]` for `i < 0` reads
`a[len(a) + i]`.  (In the source the index is always in range once the dataset
list is non-empty, so the out-of-range default is never reached.) -/
def npGetWrap (xs : List ℚ) (i : Int) : ℚ :=
  if i < 0 then xs.getD (i + xs.length).toNat 0 else xs.getD i.toNat 0

/-- Order on `(elim, expt)` pairs used to model `np.argsort(elims)` followed by
reindexing both `elims` and `expts`. -/
def pairLE (a b : ℚ × ℚ) : Prop := a.1 ≤ b.1

instance : DecidableRel pairLE := fun a b => inferInstanceAs (Decidable (a.1 ≤ b.1))

instance : IsTotal (ℚ × ℚ) pairLE := ⟨fun a b => le_total a.1 b.1⟩

instance : IsTrans (ℚ × ℚ) pairLE := ⟨fun _ _ _ h h2 => le_trans h h2⟩

/-- Lines 51–52 of the source: `np.sort(np.concatenate([data.e for data in
datasets]))`. -/
def sortedEnergies (datasets : List FlareDataset) : List ℚ :=
  List.insertionSort (fun a b => a ≤ b) (datasets.map FlareDataset.e).flatten

/-- Lines 55–58 of the source: the `(elim, expt)` pairs reordered by
`np.argsort` on the detection limits. -/
def sortedPairs (datasets : List FlareDataset) : List (ℚ × ℚ) :=
  List.insertionSort pairLE (datasets.map (fun d => (d.elim, d.expt)))

/-- Line 59 of the source: `cumexpts = np.cumsum(expts)` over the
threshold-sorted exposure times. -/
def cumexptsOf (datasets : List FlareDataset) : List ℚ :=
  cumsum ((sortedPairs datasets).map Prod.snd)

/-- Lines 60–61 of the source applied to one magnitude `m`:
`cumexpts[np.searchsorted(elims, m, side='right') - 1]`, with numpy's
negative-index wraparound when the search returns 0. -/
def detectableAt (datasets : List FlareDataset) (m : ℚ) : ℚ :=
  npGetWrap (cumexptsOf datasets)
    ((searchsortedRight ((sortedPairs datasets).map Prod.fst) m : Int) - 1)

/-- The body of `Flares.__init__` (every numpy call after the `np.concatenate`
is known not to raise): totals, sorted energies, detectable exposure via
sorted-threshold cumulative sums and right-side binary search, and the naive
and corrected cumulative frequencies. -/
def flaresBody (datasets : List FlareDataset) : Flares :=
  let n_total := (datasets.map FlareDataset.n).sum
  let expt_total := (datasets.map FlareDataset.expt).sum
  let e := sortedEnergies datasets
  let expt_detectable := e.map (detectableAt datasets)
  let cumno : List ℚ := (List.range n_total).reverse.map (fun i : ℕ => (i : ℚ) + 1)
  let cumfreq_naive := cumno.map (fun x => x / expt_total)
  let cumno_corrected :=
    ((cumsum ((expt_detectable.reverse).map (fun x => 1 / x))).reverse).map
      (fun x => x * expt_total)
  let cumfreq_corrected := cumno_corrected.map (fun x => x / expt_total)
  ⟨datasets, n_total, expt_total, e, expt_detectable, cumfreq_naive, cumfreq_corrected⟩

/-- `Flares.__init__`: on an empty dataset list `np.concatenate` raises
`ValueError: need at least one array to concatenate`; otherwise no operation
raises and the attributes of `flaresBody` are produced. -/
def flaresInit (datasets : List FlareDataset) : Except String Flares :=
  if datasets.isEmpty then Except.error "need at least one array to concatenate"
  else Except.ok (flaresBody datasets)

/-- Modelled from the spec: the plain top-down running sum of
`1/detectable_exposure`, i.e. element `i` is the sum of `1/detectable_exposure[j]`
over positions `j ≥ i` (used to state the refinement claim about the
multiply-then-divide computation of `corrected_cumfreq`). -/
def plainRunningSum (de : List ℚ) : List ℚ :=
  (List.range de.length).map (fun i => ((de.drop i).map (fun x => 1 / x)).sum)

/-! ### Projection lemmas for `flaresBody` -/

lemma flaresBody_datasets (ds : List FlareDataset) : (flaresBody ds).datasets = ds := rfl

lemma flaresBody_n_total (ds : List FlareDataset) :
    (flaresBody ds).n_total = (ds.map FlareDataset.n).sum := rfl

lemma flaresBody_expt_total (ds : List FlareDataset) :
    (flaresBody ds).expt_total = (ds.map FlareDataset.expt).sum := rfl

lemma flaresBody_e (ds : List FlareDataset) : (flaresBody ds).e = sortedEnergies ds := rfl

lemma flaresBody_expt_detectable (ds : List FlareDataset) :
    (flaresBody ds).expt_detectable = (sortedEnergies ds).map (detectableAt ds) := rfl

lemma flaresBody_cumfreq_naive (ds : List FlareDataset) :
    (flaresBody ds).cumfreq_naive =
      ((List.range (flaresBody ds).n_total).reverse.map (fun i : ℕ => (i : ℚ) + 1)).map
        (fun x => x / (flaresBody ds).expt_total) := rfl

lemma flaresBody_cumfreq_corrected (ds : List FlareDataset) :
    (flaresBody ds).cumfreq_corrected =
      (((cumsum (((flaresBody ds).expt_detectable.reverse).map (fun x => 1 / x))).reverse).map
        (fun x => x * (flaresBody ds).expt_total)).map
          (fun x => x / (flaresBody ds).expt_total) := rfl

lemma flaresInit_eq_ok {ds : List FlareDataset} (h : ds ≠ []) :
    flaresInit ds = Except.ok (flaresBody ds) := by
  simp [flaresInit, List.isEmpty_iff, h]

lemma flaresInit_ok_inv {ds : List FlareDataset} {F : Flares}
    (h : flaresInit ds = Except.ok F) : ds ≠ [] ∧ F = flaresBody ds := by
  by_cases hds : ds = []
  · subst hds; simp [flaresInit] at h
  · refine ⟨hds, ?_⟩
    rw [flaresInit_eq_ok hds] at h
    exact (Except.ok.injEq _ _ ▸ h.symm)

/-! ### Generic lemmas about the numpy models -/

lemma cumsum_length (xs : List ℚ) : (cumsum xs).length = xs.length := by
  simp [cumsum]

lemma cumsum_getElem (xs : List ℚ) (i : Nat) (h : i < (cumsum xs).length) :
    (cumsum xs)[i] = (xs.take (i + 1)).sum := by
  simp [cumsum]

lemma searchsortedRight_le_length (xs : List ℚ) (v : ℚ) :
    searchsortedRight xs v ≤ xs.length :=
  (List.takeWhile_sublist _).length_le

lemma searchsortedRight_cons (a : ℚ) (l : List ℚ) (v : ℚ) :
    searchsortedRight (a :: l) v =
      if a ≤ v then searchsortedRight l v + 1 else 0 := by
  by_cases h : a ≤ v <;> simp [searchsortedRight, List.takeWhile_cons, h]

lemma searchsortedRight_mono (xs : List ℚ) {v w : ℚ} (hvw : v ≤ w) :
    searchsortedRight xs v ≤ searchsortedRight xs w := by
  induction xs with
  | nil => simp [searchsortedRight]
  | cons a l ih =>
      rw [searchsortedRight_cons, searchsortedRight_cons]
      by_cases ha : a ≤ v
      · rw [if_pos ha, if_pos (le_trans ha hvw)]
        omega
      · rw [if_neg ha]
        omega

lemma searchsortedRight_eq_countP {xs : List ℚ}
    (hs : List.Sorted (fun a b => a ≤ b) xs) (v : ℚ) :
    searchsortedRight xs v = xs.countP (fun x => decide (x ≤ v)) := by
  induction xs with
  | nil => rfl
  | cons a l ih =>
      obtain ⟨hal, hl⟩ := List.sorted_cons.mp hs
      rw [searchsortedRight_cons, List.countP_cons]
      by_cases ha : a ≤ v
      · rw [if_pos ha, ih hl]
        simp [ha]
      · rw [if_neg ha]
        have hz : l.countP (fun x => decide (x ≤ v)) = 0 :=
          List.countP_eq_zero.mpr fun x hx => by
            simpa using fun hxv => ha (le_trans (hal x hx) hxv)
        simp [ha, hz]

/-- On a list sorted by first component, taking the first
`countP (fst ≤ m)` elements yields exactly the elements whose first
component is `≤ m`. -/
lemma take_countP_eq_filter {l : List (ℚ × ℚ)} (hs : List.Sorted pairLE l) (m : ℚ) :
    l.take (l.countP (fun p => decide (p.1 ≤ m))) =
      l.filter (fun p => decide (p.1 ≤ m)) := by
  induction l with
  | nil => rfl
  | cons a l ih =>
      obtain ⟨hal, hl⟩ := List.sorted_cons.mp hs
      by_cases ha : a.1 ≤ m
      · have hcp : (a :: l).countP (fun p => decide (p.1 ≤ m)) =
            l.countP (fun p => decide (p.1 ≤ m)) + 1 := by
          simp [List.countP_cons, ha]
        rw [hcp, List.take_succ_cons, ih hl, List.filter_cons]
        simp [ha]
      · have hz : l.countP (fun p => decide (p.1 ≤ m)) = 0 :=
          List.countP_eq_zero.mpr fun x hx => by
            simpa using fun hxv => ha (le_trans (hal x hx) hxv)
        have hfil : l.filter (fun p => decide (p.1 ≤ m)) = [] :=
          List.filter_eq_nil_iff.mpr fun x hx => by
            simpa using fun hxv => ha (le_trans (hal x hx) hxv)
        have hcp : (a :: l).countP (fun p => decide (p.1 ≤ m)) = 0 := by
          simp [List.countP_cons, hz, ha]
        rw [hcp, List.take_zero, List.filter_cons]
        simp [ha, hfil]

/-! ### Structure of the sorted stages -/

lemma sorted_sortedPairs (ds : List FlareDataset) :
    List.Sorted pairLE (sortedPairs ds) :=
  List.sorted_insertionSort pairLE _

lemma sortedPairs_perm (ds : List FlareDataset) :
    List.Perm (sortedPairs ds) (ds.map (fun d => (d.elim, d.expt))) :=
  List.perm_insertionSort pairLE _

lemma sorted_elims (ds : List FlareDataset) :
    List.Sorted (fun a b => a ≤ b) ((sortedPairs ds).map Prod.fst) := by
  rw [List.Sorted, List.pairwise_map]
  exact sorted_sortedPairs ds

lemma sorted_sortedEnergies (ds : List FlareDataset) :
    List.Sorted (fun a b : ℚ => a ≤ b) (sortedEnergies ds) :=
  List.sorted_insertionSort _ _

lemma sortedEnergies_length (ds : List FlareDataset) :
    (sortedEnergies ds).length = (ds.map FlareDataset.n).sum := by
  simp only [sortedEnergies, List.length_insertionSort, List.length_flatten, List.map_map]
  rfl

/-! ### The detectable-exposure computation -/

/-- Whenever at least one dataset can detect magnitude `m`, the searchsorted
lookup lands on a nonnegative index and `detectableAt` returns exactly the sum
of the exposure times of the datasets whose detection limit is `≤ m`
(inclusive tie-break). -/
lemma detectableAt_eq_sum (ds : List FlareDataset) (m : ℚ)
    (hd : ∃ d ∈ ds, d.elim ≤ m) :
    detectableAt ds m =
      ((ds.filter (fun d => decide (d.elim ≤ m))).map FlareDataset.expt).sum := by
  obtain ⟨d, hdmem, hdle⟩ := hd
  have hmem : (d.elim, d.expt) ∈ sortedPairs ds :=
    (sortedPairs_perm ds).mem_iff.mpr
      (List.mem_map_of_mem (fun d => (d.elim, d.expt)) hdmem)
  have helim : d.elim ∈ (sortedPairs ds).map Prod.fst :=
    List.mem_map_of_mem Prod.fst hmem
  have hcount : searchsortedRight ((sortedPairs ds).map Prod.fst) m =
      (sortedPairs ds).countP (fun p => decide (p.1 ≤ m)) := by
    rw [searchsortedRight_eq_countP (sorted_elims ds), List.countP_map]
    rfl
  have hcpos : 0 < searchsortedRight ((sortedPairs ds).map Prod.fst) m := by
    rw [hcount]
    exact List.countP_pos_iff.mpr ⟨(d.elim, d.expt), hmem, by simpa using hdle⟩
  set c := searchsortedRight ((sortedPairs ds).map Prod.fst) m with hc
  have hclen : c ≤ (sortedPairs ds).length := by
    have := searchsortedRight_le_length ((sortedPairs ds).map Prod.fst) m
    simpa [hc] using this
  have hcums : (cumexptsOf ds).length = (sortedPairs ds).length := by
    simp [cumexptsOf, cumsum_length]
  have hidx : c - 1 < (cumexptsOf ds).length := by omega
  have hwrap : detectableAt ds m = (cumexptsOf ds).getD (c - 1) 0 := by
    simp only [detectableAt, ← hc, npGetWrap, if_neg (show ¬((c : Int) - 1 < 0) by omega)]
    congr 1
    omega
  rw [hwrap, List.getD_eq_getElem _ _ hidx]
  simp only [cumexptsOf]
  rw [cumsum_getElem]
  have hsucc : c - 1 + 1 = c := by omega
  rw [hsucc, ← List.map_take, hcount, take_countP_eq_filter (sorted_sortedPairs ds)]
  have hperm :
      List.Perm (((sortedPairs ds).filter (fun p => decide (p.1 ≤ m))).map Prod.snd)
        (((ds.map (fun d => (d.elim, d.expt))).filter
          (fun p => decide (p.1 ≤ m))).map Prod.snd) :=
    ((sortedPairs_perm ds).filter (fun p => decide (p.1 ≤ m))).map Prod.snd
  rw [hperm.sum_eq, List.filter_map, List.map_map]
  rfl

/-- With nonnegative exposure times, a higher magnitude that is still covered
by some dataset has at least the detectable exposure of a lower covered one. -/
lemma detectableAt_mono (ds : List FlareDataset) (hexp : ∀ d ∈ ds, 0 ≤ d.expt)
    {m₁ m₂ : ℚ} (h12 : m₁ ≤ m₂) (h1 : ∃ d ∈ ds, d.elim ≤ m₁) :
    detectableAt ds m₁ ≤ detectableAt ds m₂ := by
  obtain ⟨d, hdmem, hdle⟩ := h1
  have h2 : ∃ d ∈ ds, d.elim ≤ m₂ := ⟨d, hdmem, le_trans hdle h12⟩
  rw [detectableAt_eq_sum ds m₁ ⟨d, hdmem, hdle⟩, detectableAt_eq_sum ds m₂ h2]
  have hsub :
      List.Sublist (ds.filter (fun d => decide (d.elim ≤ m₁)))
        (ds.filter (fun d => decide (d.elim ≤ m₂))) :=
    List.monotone_filter_right ds fun a ha => by
      simp only [decide_eq_true_eq] at ha ⊢
      exact le_trans ha h12
  refine (hsub.map FlareDataset.expt).sum_le_sum ?_
  intro x hx
  obtain ⟨d2, hd2, rfl⟩ := List.mem_map.mp hx
  exact hexp d2 (List.mem_of_mem_filter hd2)

/-! ### The cumulative-frequency computations -/

lemma cumfreq_naive_length (ds : List FlareDataset) :
    (flaresBody ds).cumfreq_naive.length = (flaresBody ds).n_total := by
  rw [flaresBody_cumfreq_naive, List.length_map, List.length_map, List.length_reverse,
    List.length_range]

lemma expt_detectable_length (ds : List FlareDataset) :
    (flaresBody ds).expt_detectable.length = (flaresBody ds).e.length := by
  simp [flaresBody_expt_detectable, flaresBody_e]

lemma e_length_eq_n_total (ds : List FlareDataset) :
    (flaresBody ds).e.length = (flaresBody ds).n_total := by
  rw [flaresBody_e, flaresBody_n_total]
  exact sortedEnergies_length ds

lemma cumfreq_corrected_length (ds : List FlareDataset) :
    (flaresBody ds).cumfreq_corrected.length = (flaresBody ds).expt_detectable.length := by
  simp [flaresBody_cumfreq_corrected, cumsum_length]

/-- Element `i` of `cumfreq_naive` is `(n_total - i) / expt_total`. -/
lemma cumfreq_naive_getElem (ds : List FlareDataset) (i : Nat)
    (h : i < (flaresBody ds).cumfreq_naive.length) :
    (flaresBody ds).cumfreq_naive[i] =
      (((flaresBody ds).n_total : ℚ) - (i : ℚ)) / (flaresBody ds).expt_total := by
  have hn : i < (flaresBody ds).n_total := by
    rwa [cumfreq_naive_length] at h
  simp only [flaresBody_cumfreq_naive, List.getElem_map, List.getElem_reverse,
    List.getElem_range, List.length_map, List.length_reverse, List.length_range]
  have hcast : (((flaresBody ds).n_total - 1 - i : ℕ) : ℚ) + 1 =
      ((flaresBody ds).n_total : ℚ) - (i : ℚ) := by
    have h1 : i + 1 ≤ (flaresBody ds).n_total := hn
    have h2 : (flaresBody ds).n_total - 1 - i = (flaresBody ds).n_total - (i + 1) := by
      omega
    rw [h2, Nat.cast_sub h1]
    push_cast
    ring
  rw [hcast]

/-- Reversed cumulative sum of a reversed list: element `i` is the sum of the
entries at positions `≥ i`. -/
lemma cumsum_reverse_getElem (ys : List ℚ) (i : Nat)
    (h : i < ((cumsum ys.reverse).reverse).length) :
    ((cumsum ys.reverse).reverse)[i] = (ys.drop i).sum := by
  have hlen : ((cumsum ys.reverse).reverse).length = ys.length := by
    simp [cumsum_length]
  have hi : i < ys.length := hlen ▸ h
  rw [List.getElem_reverse, cumsum_getElem]
  have hidx : (cumsum ys.reverse).length - 1 - i + 1 = ys.length - i := by
    simp only [cumsum_length, List.length_reverse]
    omega
  rw [hidx, List.take_reverse]
  have h2 : ys.length - (ys.length - i) = i := by omega
  rw [h2, List.sum_reverse]

/-- The multiply-by-total-then-divide-by-total computation of
`cumfreq_corrected` collapses to the plain top-down running sum of
`1 / expt_detectable` whenever `expt_total ≠ 0`. -/
lemma cumfreq_corrected_eq_plain (ds : List FlareDataset)
    (hT : (flaresBody ds).expt_total ≠ 0) :
    (flaresBody ds).cumfreq_corrected = plainRunningSum (flaresBody ds).expt_detectable := by
  rw [flaresBody_cumfreq_corrected, List.map_map]
  have hcollapse :
      ((fun x => x / (flaresBody ds).expt_total) ∘
        (fun x => x * (flaresBody ds).expt_total)) = id :=
    funext fun x => mul_div_cancel_right₀ x hT
  rw [hcollapse, List.map_id]
  apply List.ext_getElem
  · simp [plainRunningSum, cumsum_length]
  · intro n h1 h2
    have hmapver : (flaresBody ds).expt_detectable.reverse.map (fun x => 1 / x) =
        ((flaresBody ds).expt_detectable.map (fun x => 1 / x)).reverse := by
      rw [List.map_reverse]
    simp only [hmapver]
    rw [cumsum_reverse_getElem]
    simp only [plainRunningSum, List.getElem_map, List.getElem_range]
    rw [List.map_drop]

/-- For the one-dataset aggregate every magnitude gets the full exposure of
that dataset: the searchsorted index is 0 or 1 and both (after the `- 1` and
the possible wraparound) address the single cumulative entry. -/
lemma detectableAt_single (d : FlareDataset) (m : ℚ) :
    detectableAt [d] m = d.expt := by
  have hpairs : sortedPairs [d] = [(d.elim, d.expt)] := rfl
  have hcum : cumexptsOf [d] = [d.expt] := by
    simp [cumexptsOf, hpairs, cumsum]
  by_cases hm : d.elim ≤ m
  · simp [detectableAt, hpairs, hcum, searchsortedRight, List.takeWhile, hm, npGetWrap,
      List.getD]
  · simp [detectableAt, hpairs, hcum, searchsortedRight, List.takeWhile, hm, npGetWrap,
      List.getD]

/-! ### Concrete scenario datasets -/

/-- Dataset A of the spec's concrete scenario. -/
def dsA : FlareDataset := ⟨1, 100, [2, 5]⟩

/-- Dataset B of the spec's concrete scenario. -/
def dsB : FlareDataset := ⟨3, 50, [4]⟩

/-- C1: the two-dataset concrete scenario produces exactly the magnitudes,
totals, detectable exposures and the two cumulative-frequency arrays the spec
lists. -/
theorem c1_concrete_scenario :
    flaresInit [dsA, dsB] =
      Except.ok
        ⟨[dsA, dsB], 3, 150, [2, 4, 5], [100, 150, 150],
          [3 / 150, 2 / 150, 1 / 150],
          [2 / 150 + 1 / 100, 2 / 150, 1 / 150]⟩ := by
  simp only [flaresInit, flaresBody, dsA, dsB]
  norm_num [cumsum, searchsortedRight, npGetWrap, pairLE, sortedEnergies, sortedPairs,
    cumexptsOf, detectableAt, List.insertionSort, List.orderedInsert, List.takeWhile,
    List.range_succ, List.getD, FlareDataset.n, Flares.mk.injEq]

/-- C4: constructing an aggregate from zero datasets fails at construction
time (the `np.concatenate` call raises); no empty-but-valid object is
produced. -/
theorem c4_empty_input_rejected :
    flaresInit [] = Except.error "need at least one array to concatenate" := rfl

/-- C2 (observed code behavior): for a single dataset whose detection limit 3
exceeds its only event magnitude 2, construction does not raise; the
`searchsorted` result 0 makes the lookup read `cumexpts[-1]`, which wraps to
the last cumulative entry, so `expt_detectable` silently becomes `[50]` (the
full total exposure) even though the exposure of datasets able to detect the
event sums to 0 — contradicting both the claim and the source docstring for
`expt_detectable`. -/
theorem c2_wrap_behavior :
    flaresInit [⟨3, 50, [2]⟩] =
        Except.ok ⟨[⟨3, 50, [2]⟩], 1, 50, [2], [50], [1 / 50], [1 / 50]⟩ ∧
      ((([⟨3, 50, [2]⟩] : List FlareDataset).filter
          (fun d => decide (d.elim ≤ 2))).map FlareDataset.expt).sum = 0 := by
  constructor
  · simp only [flaresInit, flaresBody]
    norm_num [cumsum, searchsortedRight, npGetWrap, pairLE, sortedEnergies, sortedPairs,
      cumexptsOf, detectableAt, List.insertionSort, List.orderedInsert, List.takeWhile,
      List.range_succ, List.getD, FlareDataset.n, Flares.mk.injEq]
  · norm_num

/-- C3 counterexample: a non-empty collection with `total_exposure = 0` does
NOT raise — construction succeeds and returns an object (numpy would emit
division-by-zero warnings and non-finite array entries, not an exception; in
the `ℚ` model the divisions by zero evaluate to 0). -/
theorem c3_counterexample :
    flaresInit [⟨1, 0, [2]⟩] =
      Except.ok ⟨[⟨1, 0, [2]⟩], 1, 0, [2], [0], [0], [0]⟩ := by
  simp only [flaresInit, flaresBody]
  norm_num [cumsum, searchsortedRight, npGetWrap, pairLE, sortedEnergies, sortedPairs,
    cumexptsOf, detectableAt, List.insertionSort, List.orderedInsert, List.takeWhile,
    List.range_succ, List.getD, FlareDataset.n, Flares.mk.injEq]

/-- C3 (amended): for every non-empty dataset collection whose exposure times
sum to zero, construction succeeds without raising (the degenerate divisions
propagate into the frequency arrays instead of being rejected). -/
theorem c3_amended_no_raise (ds : List FlareDataset) (hne : ds ≠ [])
    (hT : (ds.map FlareDataset.expt).sum = 0) :
    flaresInit ds = Except.ok (flaresBody ds) ∧ (flaresBody ds).expt_total = 0 :=
  ⟨flaresInit_eq_ok hne, by rw [flaresBody_expt_total]; exact hT⟩

/-- Witness for `c3_amended_no_raise` at the concrete zero-exposure input. -/
theorem c3_amended_no_raise_witness :
    flaresInit [⟨1, 0, [2]⟩] = Except.ok (flaresBody [⟨1, 0, [2]⟩]) ∧
      (flaresBody [⟨1, 0, [2]⟩]).expt_total = 0 :=
  c3_amended_no_raise [⟨1, 0, [2]⟩] (by simp) (by norm_num)

/-- C9 counterexample: two datasets with distinct detection limits (10 and 2)
and nonnegative exposure times, where the event at magnitude 1 lies below both
limits: the wraparound makes its detectable exposure the full total 105, while
the event at magnitude 3 gets 5, so `expt_detectable = [105, 5]` is
decreasing. -/
theorem c9_counterexample :
    (flaresInit [⟨10, 100, [1]⟩, ⟨2, 5, [3]⟩]).map Flares.expt_detectable =
        Except.ok [105, 5] ∧
      ¬ (105 : ℚ) ≤ 5 ∧ (10 : ℚ) ≠ 2 := by
  refine ⟨?_, by norm_num, by norm_num⟩
  simp only [flaresInit, flaresBody]
  norm_num [cumsum, searchsortedRight, npGetWrap, pairLE, sortedEnergies, sortedPairs,
    cumexptsOf, detectableAt, List.insertionSort, List.orderedInsert, List.takeWhile,
    List.range_succ, List.getD, FlareDataset.n, Except.map]

/-- C5 counterexample: for the single dataset `(elim 3, expt 50, events [2])`
the event at magnitude 2 is below the only detection limit, yet the code
produces `expt_detectable = [50]` (by index wraparound) while the sum of
exposure times over datasets with `detection_limit ≤ 2` is 0. -/
theorem c5_counterexample :
    (flaresInit [⟨3, 50, [2]⟩]).map Flares.expt_detectable = Except.ok [50] ∧
      ((([⟨3, 50, [2]⟩] : List FlareDataset).filter
          (fun d => decide (d.elim ≤ 2))).map FlareDataset.expt).sum = 0 ∧
      (50 : ℚ) ≠ 0 := by
  refine ⟨?_, by norm_num, by norm_num⟩
  simp only [flaresInit, flaresBody]
  norm_num [cumsum, searchsortedRight, npGetWrap, pairLE, sortedEnergies, sortedPairs,
    cumexptsOf, detectableAt, List.insertionSort, List.orderedInsert, List.takeWhile,
    List.range_succ, List.getD, FlareDataset.n, Except.map]

/-- C5 (amended): whenever at least one dataset's detection limit is `≤` the
event's magnitude, `expt_detectable[i]` is exactly the sum of the exposure
times of the datasets whose detection limit is `≤ magnitudes[i]`, with the
equal-threshold dataset included (inclusive tie-break). -/
theorem c5_detectable_exposure_sum (ds : List FlareDataset) (F : Flares)
    (h : flaresInit ds = Except.ok F) (i : Nat) (hi : i < F.e.length)
    (hd : ∃ d ∈ ds, d.elim ≤ F.e.getD i 0) :
    F.expt_detectable.getD i 0 =
      ((ds.filter (fun d => decide (d.elim ≤ F.e.getD i 0))).map FlareDataset.expt).sum := by
  obtain ⟨hne, hF⟩ := flaresInit_ok_inv h
  subst hF
  have hie : i < (sortedEnergies ds).length := by
    rw [← flaresBody_e]
    exact hi
  have hee : (flaresBody ds).e.getD i 0 = (sortedEnergies ds)[i] := by
    rw [flaresBody_e, List.getD_eq_getElem _ _ hie]
  rw [hee] at hd ⊢
  have hlen : i < (flaresBody ds).expt_detectable.length := by
    rw [expt_detectable_length]
    exact hi
  rw [List.getD_eq_getElem _ _ hlen]
  simp only [flaresBody_expt_detectable, List.getElem_map]
  exact detectableAt_eq_sum ds _ hd

/-- Witness for `c5_detectable_exposure_sum` at a two-dataset input. -/
theorem c5_detectable_exposure_sum_witness :
    (flaresBody [⟨0, 7, [1]⟩, ⟨2, 3, [5]⟩]).expt_detectable.getD 1 0 =
      ((([⟨0, 7, [1]⟩, ⟨2, 3, [5]⟩] : List FlareDataset).filter
          (fun d => decide (d.elim ≤
            (flaresBody [⟨0, 7, [1]⟩, ⟨2, 3, [5]⟩]).e.getD 1 0))).map
        FlareDataset.expt).sum :=
  c5_detectable_exposure_sum _ _ (flaresInit_eq_ok (by simp)) 1 (by decide) (by decide)

/-- C6: for every successfully constructed aggregate with positive total
exposure, `naive_cumfreq[i] = (n_total - i) / expt_total`. -/
theorem c6_naive_formula (ds : List FlareDataset) (F : Flares)
    (h : flaresInit ds = Except.ok F) (hT : 0 < F.expt_total)
    (i : Nat) (hi : i < F.cumfreq_naive.length) :
    F.cumfreq_naive.getD i 0 = ((F.n_total : ℚ) - (i : ℚ)) / F.expt_total := by
  obtain ⟨hne, hF⟩ := flaresInit_ok_inv h
  subst hF
  rw [List.getD_eq_getElem _ _ hi]
  exact cumfreq_naive_getElem ds i hi

/-- Witness for `c6_naive_formula`: one dataset with five events and exposure
10; the first naive frequency is `(5 - 0) / 10`. -/
theorem c6_naive_formula_witness :
    0 < (flaresBody [⟨0, 10, [1, 2, 3, 4, 5]⟩]).expt_total ∧
      (flaresBody [⟨0, 10, [1, 2, 3, 4, 5]⟩]).cumfreq_naive.getD 0 0 =
        (((flaresBody [⟨0, 10, [1, 2, 3, 4, 5]⟩]).n_total : ℚ) - (0 : ℚ)) /
          (flaresBody [⟨0, 10, [1, 2, 3, 4, 5]⟩]).expt_total :=
  ⟨by norm_num [flaresBody_expt_total],
    c6_naive_formula _ _ (flaresInit_eq_ok (by simp))
      (by norm_num [flaresBody_expt_total]) 0
      (by norm_num [cumfreq_naive_length, flaresBody_n_total, FlareDataset.n])⟩

/-- C7: the exposed `corrected_cumfreq` — running sum multiplied by
`expt_total` and then divided by `expt_total` — equals the plain top-down
running sum of `1 / expt_detectable`, with no net rescaling. -/
theorem c7_corrected_refines_plain_sum (ds : List FlareDataset) (F : Flares)
    (h : flaresInit ds = Except.ok F) (hT : F.expt_total ≠ 0) :
    F.cumfreq_corrected = plainRunningSum F.expt_detectable := by
  obtain ⟨hne, hF⟩ := flaresInit_ok_inv h
  subst hF
  exact cumfreq_corrected_eq_plain ds hT

/-- Witness for `c7_corrected_refines_plain_sum`. -/
theorem c7_corrected_refines_plain_sum_witness :
    (flaresBody [⟨0, 4, [1, 2]⟩]).cumfreq_corrected =
      plainRunningSum (flaresBody [⟨0, 4, [1, 2]⟩]).expt_detectable :=
  c7_corrected_refines_plain_sum _ _ (flaresInit_eq_ok (by simp))
    (by norm_num [flaresBody_expt_total])

/-- C8: with exactly one dataset of positive exposure time, the corrected and
naive cumulative frequencies coincide elementwise. -/
theorem c8_single_dataset_degeneracy (d : FlareDataset) (F : Flares)
    (h : flaresInit [d] = Except.ok F) (hpos : 0 < d.expt) :
    F.cumfreq_corrected = F.cumfreq_naive := by
  obtain ⟨hne, hF⟩ := flaresInit_ok_inv h
  subst hF
  have hT : (flaresBody [d]).expt_total = d.expt := by
    rw [flaresBody_expt_total]
    simp
  have hTne : (flaresBody [d]).expt_total ≠ 0 := by
    rw [hT]
    exact ne_of_gt hpos
  rw [cumfreq_corrected_eq_plain [d] hTne]
  have hde : (flaresBody [d]).expt_detectable =
      List.replicate (flaresBody [d]).e.length d.expt := by
    rw [flaresBody_expt_detectable, flaresBody_e,
      List.map_congr_left (fun m _ => detectableAt_single d m)]
    exact List.map_const _ _
  rw [hde]
  have hE : (flaresBody [d]).e.length = (flaresBody [d]).n_total := e_length_eq_n_total [d]
  apply List.ext_getElem
  · simp [plainRunningSum, cumfreq_naive_length, hE]
  · intro i h1 h2
    rw [cumfreq_naive_getElem [d] i h2, hT]
    have hin : i < (flaresBody [d]).n_total := by
      rwa [cumfreq_naive_length] at h2
    simp only [plainRunningSum, List.getElem_map, List.getElem_range,
      List.drop_replicate, List.map_replicate, List.sum_replicate]
    rw [nsmul_eq_mul, hE, Nat.cast_sub (le_of_lt hin)]
    ring

/-- Witness for `c8_single_dataset_degeneracy`. -/
theorem c8_single_dataset_degeneracy_witness :
    (0 : ℚ) < 6 ∧
      (flaresBody [⟨2, 6, [3, 4]⟩]).cumfreq_corrected =
        (flaresBody [⟨2, 6, [3, 4]⟩]).cumfreq_naive :=
  ⟨by norm_num,
    c8_single_dataset_degeneracy _ _ (flaresInit_eq_ok (by simp)) (by norm_num)⟩

/-- C9 (amended): if additionally every exposure time is nonnegative and every
event magnitude is at least one dataset's detection limit (so the negative
index wraparound never triggers), `expt_detectable` is non-decreasing along
the ascending magnitudes. -/
theorem c9_detectable_monotone (ds : List FlareDataset) (F : Flares)
    (h : flaresInit ds = Except.ok F)
    (hdis : (ds.map FlareDataset.elim).Pairwise (fun a b => a ≠ b))
    (hexp : ∀ d ∈ ds, 0 ≤ d.expt)
    (hcov : ∀ m ∈ F.e, ∃ d ∈ ds, d.elim ≤ m) :
    F.expt_detectable.Sorted (fun a b : ℚ => a ≤ b) := by
  obtain ⟨hne, hF⟩ := flaresInit_ok_inv h
  subst hF
  rw [flaresBody_e] at hcov
  rw [flaresBody_expt_detectable]
  have hp : List.Pairwise (fun a b : ℚ => a ≤ b) (sortedEnergies ds) :=
    sorted_sortedEnergies ds
  exact List.pairwise_map.mpr
    (List.Pairwise.imp_of_mem
      (fun ha hb hab => detectableAt_mono ds hexp hab (hcov _ ha)) hp)

/-- Witness for `c9_detectable_monotone` at the spec's concrete scenario
values. -/
theorem c9_detectable_monotone_witness :
    (flaresBody [⟨1, 100, [2, 5]⟩, ⟨3, 50, [4]⟩]).expt_detectable.Sorted
      (fun a b : ℚ => a ≤ b) :=
  c9_detectable_monotone _ _ (flaresInit_eq_ok (by simp)) (by decide) (by decide)
    (by decide)

/-- C10: with a non-empty dataset collection whose event lists are all empty,
construction succeeds and produces `total_count = 0` and empty magnitude,
detectable-exposure and frequency arrays. -/
theorem c10_all_events_empty (ds : List FlareDataset) (hne : ds ≠ [])
    (hall : ∀ d ∈ ds, d.e = []) :
    flaresInit ds = Except.ok (flaresBody ds) ∧
      (flaresBody ds).n_total = 0 ∧
      (flaresBody ds).e = [] ∧
      (flaresBody ds).expt_detectable = [] ∧
      (flaresBody ds).cumfreq_naive = [] ∧
      (flaresBody ds).cumfreq_corrected = [] := by
  have hflat : (ds.map FlareDataset.e).flatten = [] :=
    List.flatten_eq_nil_iff.mpr fun l hl => by
      obtain ⟨d, hd, rfl⟩ := List.mem_map.mp hl
      exact hall d hd
  have hE : sortedEnergies ds = [] := by
    rw [sortedEnergies, hflat]
    rfl
  have hn : (flaresBody ds).n_total = 0 := by
    rw [flaresBody_n_total]
    exact List.sum_eq_zero fun x hx => by
      obtain ⟨d, hd, rfl⟩ := List.mem_map.mp hx
      simp [FlareDataset.n, hall d hd]
  refine ⟨flaresInit_eq_ok hne, hn, ?_, ?_, ?_, ?_⟩
  · rw [flaresBody_e]
    exact hE
  · rw [flaresBody_expt_detectable, hE]
    rfl
  · rw [flaresBody_cumfreq_naive, hn]
    rfl
  · rw [flaresBody_cumfreq_corrected, flaresBody_expt_detectable, hE]
    rfl

/-- Witness for `c10_all_events_empty`: one event-free dataset. -/
theorem c10_all_events_empty_witness :
    flaresInit [⟨1, 10, ([] : List ℚ)⟩] =
        Except.ok (flaresBody [⟨1, 10, ([] : List ℚ)⟩]) ∧
      (flaresBody [⟨1, 10, ([] : List ℚ)⟩]).n_total = 0 ∧
      (flaresBody [⟨1, 10, ([] : List ℚ)⟩]).e = [] ∧
      (flaresBody [⟨1, 10, ([] : List ℚ)⟩]).expt_detectable = [] ∧
      (flaresBody [⟨1, 10, ([] : List ℚ)⟩]).cumfreq_naive = [] ∧
      (flaresBody [⟨1, 10, ([] : List ℚ)⟩]).cumfreq_corrected = [] :=
  c10_all_events_empty _ (by simp) (by simp)

end FFD
